import Mathlib

/-!
Verification of the mayfly-go dialect / schema-transfer engine against its
specification.  The Go sources under `src/server/internal/...` (the MSSQL
dialect, the MySQL metadata driver and their data converters) are shallowly
embedded below: pure string/SQL construction becomes pure Lean functions,
database calls become an explicit execution environment
(`ExecEnv : String → List GoVal → Except String Int`) whose answers are
quantified over, and every statement the Go code would send to the engine is
recorded in an explicit trace.  Go panics (out-of-range indexing) are modelled
as an explicit `crash` outcome.
-/

namespace Mayfly

/-! ## Go runtime scaffolding -/

/-- Model of Go `time.Time` restricted to the wall-clock fields the embedded
code reads and writes.  The Go zero value `time.Time{}` is year 1, January 1. -/
structure GoTime where
  year : Nat
  month : Nat
  day : Nat
  hour : Nat
  minute : Nat
  second : Nat
deriving DecidableEq

/-- The zero value of Go `time.Time`: 0001-01-01 00:00:00. -/
def zeroTime : GoTime := ⟨1, 1, 1, 0, 0, 0⟩

/-- Model of Go `any` values as they flow through the embedded code:
strings, integers, times, and nil. -/
inductive GoVal where
  | str (s : String)
  | int (n : Int)
  | time (t : GoTime)
  | null
deriving DecidableEq

/-- Whether a Go value is a string (the `value.(string)` type assertion). -/
def GoVal.isStrVal : GoVal → Bool
  | .str _ => true
  | _ => false

instance {ε α : Type} [DecidableEq ε] [DecidableEq α] : DecidableEq (Except ε α) := fun a b =>
  match a, b with
  | .ok x, .ok y =>
    if h : x = y then isTrue (h ▸ rfl) else isFalse (fun he => h (Except.ok.inj he))
  | .error x, .error y =>
    if h : x = y then isTrue (h ▸ rfl) else isFalse (fun he => h (Except.error.inj he))
  | .ok _, .error _ => isFalse (fun he => Except.noConfusion he)
  | .error _, .ok _ => isFalse (fun he => Except.noConfusion he)

/-- Outcome of a Go function call that can return normally, return an error,
or panic (e.g. index out of range). -/
inductive GoOutcome (α : Type) where
  | ok (val : α)
  | err (e : String)
  | crash
deriving DecidableEq

/-- A statement sent to the database: the SQL text and its bound arguments. -/
abbrev Stmt := String × List GoVal

/-- The database connection as seen by the embedded code: executing a
statement with bound arguments yields either a rows-affected count or an
error.  Quantifying over `ExecEnv` quantifies over every possible behaviour
of the engine, including failing inserts. -/
abbrev ExecEnv := String → List GoVal → Except String Int

/-! ## Character-list string primitives (models of Go `strings` functions) -/

/-- Model of Go `strings.Repeat`: `s` concatenated `count` times. -/
def strRepeat (s : String) : Nat → String
  | 0 => ""
  | n + 1 => s ++ strRepeat s n

/-- Model of Go `strings.TrimSuffix`: remove one trailing copy of `suffix`
when present, otherwise return the string unchanged. -/
def trimSuffix (s suffix : String) : String :=
  if suffix.data.isSuffixOf s.data then
    String.mk (s.data.take (s.data.length - suffix.data.length))
  else s

/-- Whether `sub` occurs inside `l` (character-list infix test). -/
def containsChars (sub : List Char) : List Char → Bool
  | [] => sub.isEmpty
  | c :: rest => sub.isPrefixOf (c :: rest) || containsChars sub rest

/-- Model of Go `strings.Contains`. -/
def strContains (s sub : String) : Bool :=
  containsChars sub.data s.data

/-- Model of Go `strings.HasPrefix`. -/
def strStartsWith (s pre : String) : Bool :=
  pre.data.isPrefixOf s.data

/-- Fuel-driven worker for `strReplace`: replaces non-overlapping occurrences
of `pat` left to right.  The fuel argument is only a structural-termination
device; it is always instantiated with the length of the scanned list, which
suffices because every step consumes at least one character. -/
def replaceFuel (pat repl : List Char) : Nat → List Char → List Char
  | 0, l => l
  | _ + 1, [] => []
  | fuel + 1, c :: rest =>
    if pat ≠ [] ∧ pat.isPrefixOf (c :: rest) then
      repl ++ replaceFuel pat repl fuel ((c :: rest).drop pat.length)
    else
      c :: replaceFuel pat repl fuel rest

/-- Model of Go `strings.ReplaceAll`. -/
def strReplace (s pat repl : String) : String :=
  String.mk (replaceFuel pat.data repl.data s.data.length s.data)

/-- Worker for `goSplitComma`: split a character list at a separator
character, accumulating the current field in reverse. -/
def splitCharsAux (sep : Char) : List Char → List Char → List (List Char)
  | [], cur => [cur.reverse]
  | c :: rest, cur =>
    if c = sep then cur.reverse :: splitCharsAux sep rest []
    else splitCharsAux sep rest (c :: cur)

/-- Model of Go `strings.Split(s, ",")` (the only separator the embedded code
splits on): `""` yields `[""]`, and separators delimit possibly-empty fields. -/
def goSplitComma (s : String) : List String :=
  (splitCharsAux ',' s.data []).map String.mk

/-- Model of Go `strings.Join`. -/
def goJoin (sep : String) : List String → String
  | [] => ""
  | [x] => x
  | x :: y :: xs => x ++ sep ++ goJoin sep (y :: xs)

/-! ## The `dbi` data model

The `dbi` package itself is not under `src/`; the structures below carry
exactly the fields the embedded code reads, with the field meanings taken
from how `src/` populates them. -/

/-- `dbi.Index` as populated by both dialects' index introspection: one value
per raw result row (index name, one column name, sequence number). -/
structure Index where
  indexName : String
  columnName : String
  indexType : String
  indexComment : String
  isUnique : Bool
  seqInIndex : Nat
deriving DecidableEq

/-- `dbi.Column` as populated by the MSSQL dialect's `GetColumns`. -/
structure Column where
  tableName : String
  columnName : String
  columnType : String
  nullable : String
  isPrimaryKey : Bool
  isIdentity : Bool
  columnDefault : String
deriving DecidableEq

/-- `dbi.Table` as populated by `GetTables`. -/
structure Table where
  tableName : String
  tableComment : String
  createTime : String
  tableRows : Nat
  dataLength : Int
  indexLength : Int
deriving DecidableEq

/-- Modelled from the spec: the caller-selected duplicate-handling policy
enumeration {None, Ignore, Update(merge)} (`dbi.DuplicateStrategy*` constants,
not under `src/`). -/
inductive DuplicateStrategy where
  | strNone
  | strIgnore
  | strUpdate
deriving DecidableEq

/-- Modelled from the spec: the coarse runtime categories of the data
converter {number, datetime, date, time, string} (`dbi.DataType*` constants,
not under `src/`). -/
inductive DataType where
  | number
  | dateTime
  | date
  | time
  | str
deriving DecidableEq

/-- Modelled from the spec: the dialect-supplied identifier quoting function
(`dbi.DbType.QuoteIdentifier`, not under `src/`); the MSSQL dialect wraps an
identifier in square brackets, as the literal `[%s]` templates in `src/` show. -/
def quoteIdentifier (s : String) : String := "[" ++ s ++ "]"

/-- Modelled from the spec: `dbi.DbType.RemoveQuote` (not under `src/`)
strips the dialect quote characters from an identifier. -/
def removeQuote (s : String) : String :=
  strReplace (strReplace s "[" "") "]" ""

/-! ## MSSQL dialect: batch insert -/

/-- The inner loop of the Ignore strategy: append the columns of `cols` to
`uniqueColumns`, skipping columns already present (`collx.ArrayContains`). -/
def collectUniqueCols (uniqueColumns : List String) (cols : List String) : List String :=
  cols.foldl (fun acc col => if acc.contains col then acc else acc ++ [col]) uniqueColumns

/-- Union of the columns of all unique indexes, in first-seen order, splitting
each index's comma-joined column list.  This is the duplicate-detection
column set the Ignore strategy builds from `getTableIndexWithPK`. -/
def uniqueColumnsOf (indexs : List Index) : List String :=
  indexs.foldl
    (fun acc index =>
      if index.isUnique then collectUniqueCols acc (goSplitComma index.columnName)
      else acc)
    []

/-- The `ignoreDupSql` template of `batchInsertSimple`: an `ALTER TABLE ...
ADD CONSTRAINT uniqueRows UNIQUE (...) WITH (IGNORE_DUP_KEY = \x7bsign\x7d)`
statement with the raw (unquoted) schema and table name, exactly as the Go
`fmt.Sprintf` builds it. -/
def ignoreDupSqlOf (schema tableName : String) (uniqueColumns : List String) : String :=
  "ALTER TABLE " ++ schema ++ "." ++ tableName ++
    " ADD CONSTRAINT uniqueRows UNIQUE (" ++ goJoin "," uniqueColumns ++
    ") WITH (IGNORE_DUP_KEY = \x7bsign\x7d)"

/-- The placeholder string of `batchInsertSimple`: repeat `"?,"` once per
column, trim the trailing comma, parenthesize; then repeat that group once
per row and trim the trailing comma again. -/
def goPlaceholders (numCols numRows : Nat) : String :=
  let repeated := strRepeat "?," numCols
  let placeholder := "(" ++ trimSuffix repeated "," ++ ")"
  let repeated2 := strRepeat (placeholder ++ ",") numRows
  trimSuffix repeated2 ","

/-- The `SET IDENTITY_INSERT [schema].[table] ON` text both insert paths
prepend to their statement. -/
def identityInsertOnOf (schema tableName : String) : String :=
  "SET IDENTITY_INSERT [" ++ schema ++ "].[" ++ tableName ++ "] ON"

/-- Result of one batch-insert call: the statements attempted (in order),
the log lines emitted, and the value returned to the caller. -/
structure Outcome where
  trace : List Stmt
  logs : List String
  res : Except String Int
deriving DecidableEq

/-- Embedding of `MssqlDialect.batchInsertSimple`.  `rawIndexes` is the raw
row list the `getTableIndexWithPK` query would deliver for the table (the
function returns its input rows ungrouped, see `mssqlGetTableIndexWithPK`).
For the Ignore strategy the unique-index column union is computed and, when
non-empty, the `uniqueRows` constraint statement is executed with
`\x7bsign\x7d` replaced by `ON` (its result discarded, `_, _ =`).  The insert
itself is one statement: the identity-insert toggle text, a space, and the
multi-row `insert into` with positional placeholders and the row-major
flattened arguments.  Afterwards, if `ignoreDupSql` was set, the same
statement is executed with `OFF` substituted, its result again discarded,
and the insert's result is returned. -/
def batchInsertSimple (env : ExecEnv) (schema tableName : String)
    (columns : List String) (values : List (List GoVal))
    (duplicateStrategy : DuplicateStrategy) (rawIndexes : List Index) : Outcome :=
  let pre : List Stmt × String :=
    match duplicateStrategy with
    | .strIgnore =>
      let uniqueColumns := uniqueColumnsOf rawIndexes
      if uniqueColumns ≠ [] then
        let ignoreDupSql := ignoreDupSqlOf schema tableName uniqueColumns
        ([(strReplace ignoreDupSql "\x7bsign\x7d" "ON", [])], ignoreDupSql)
      else ([], "")
    | _ => ([], "")
  let placeholder := goPlaceholders columns.length values.length
  let baseTable := quoteIdentifier schema ++ "." ++ quoteIdentifier tableName
  let sqlStr := "insert into " ++ baseTable ++ " (" ++ goJoin "," columns ++
    ") values " ++ placeholder
  let args := values.flatten
  let stmt := identityInsertOnOf schema tableName ++ " " ++ sqlStr
  let res := env stmt args
  let post : List Stmt :=
    if pre.2 ≠ "" then [(strReplace pre.2 "\x7bsign\x7d" "OFF", [])] else []
  { trace := pre.1 ++ [(stmt, args)] ++ post, logs := [], res := res }

/-- Identity columns collected by the single metadata loop of
`batchInsertMerge` (in column order). -/
def identityColsOf (cols : List Column) : List String :=
  (cols.filter (fun c => c.isIdentity)).map (fun c => c.columnName)

/-- Primary-key columns collected by the same loop (in column order). -/
def pkColsOf (cols : List Column) : List String :=
  (cols.filter (fun c => c.isPrimaryKey)).map (fun c => c.columnName)

/-- The `ON` join fragments collected by the same loop, one per primary-key
column. -/
def caseSqlsOf (cols : List Column) : List String :=
  (cols.filter (fun c => c.isPrimaryKey)).map
    (fun c =>
      " T1." ++ quoteIdentifier c.columnName ++ " = T2." ++
        quoteIdentifier c.columnName ++ " ")

/-- The `UPDATE SET` fragments of the merge: every caller column whose
unquoted name is not an identity column. -/
def updsOf (identityCols : List String) (columns : List String) : List String :=
  (columns.filter (fun column => ¬ identityCols.contains (removeQuote column))).map
    (fun column => "T1." ++ column ++ " = T2." ++ column)

/-- The `MERGE INTO ... USING ... ON ... WHEN NOT MATCHED ... WHEN MATCHED`
text of `batchInsertMerge`, assembled exactly as the Go string concatenation
does (including its missing space before `WHEN`). -/
def mergeSqlTempOf (schema tableName : String) (columns : List String)
    (cols : List Column) (numRows : Nat) : String :=
  let phs := columns.map (fun column => "? " ++ column)
  let tmp := "select " ++ goJoin "," phs
  let t2 := goJoin " UNION ALL " (List.replicate numRows tmp)
  "MERGE INTO " ++ quoteIdentifier schema ++ "." ++ quoteIdentifier tableName ++
    " T1 USING (" ++ t2 ++ ") T2 ON " ++ goJoin " AND " (caseSqlsOf cols) ++
    "WHEN NOT MATCHED THEN INSERT (" ++ goJoin "," columns ++ ") VALUES (" ++
    goJoin "," (columns.map (fun column => "T2." ++ column)) ++ ") " ++
    "WHEN MATCHED THEN UPDATE SET " ++ goJoin "," (updsOf (identityColsOf cols) columns)

/-- Embedding of `MssqlDialect.batchInsertMerge`.  `colsRes` is the result of
the `GetColumns(tableName)` metadata query the strategy performs.  The Go
code assigns `cols, err := md.GetColumns(tableName)` and never checks `err`:
on a failed lookup `cols` is nil and execution continues, so the error case
behaves exactly like an empty column list.  With no primary-key column the
call falls through to `batchInsertSimple` with the caller's strategy value.
Otherwise one merge statement is executed; on execution error the failing
statement is written to the log and the error value returned unchanged. -/
def batchInsertMerge (env : ExecEnv) (schema tableName : String)
    (columns : List String) (values : List (List GoVal))
    (duplicateStrategy : DuplicateStrategy) (rawIndexes : List Index)
    (colsRes : Except String (List Column)) : Outcome :=
  let cols : List Column := match colsRes with | .ok cs => cs | .error _ => []
  if pkColsOf cols = [] then
    batchInsertSimple env schema tableName columns values duplicateStrategy rawIndexes
  else
    let args := values.flatten
    let sqlTemp := mergeSqlTempOf schema tableName columns cols values.length
    let stmt := identityInsertOnOf schema tableName ++ " " ++ sqlTemp ++ ";"
    let res := env stmt args
    let logs : List String :=
      match res with
      | .error e => ["执行sql失败：" ++ e ++ ", sql: [ " ++ sqlTemp ++ " ]"]
      | .ok _ => []
    { trace := [(stmt, args)], logs := logs, res := res }

/-- Embedding of `MssqlDialect.BatchInsert`: the Update strategy routes to
the merge path, everything else to the simple path. -/
def BatchInsert (env : ExecEnv) (schema tableName : String)
    (columns : List String) (values : List (List GoVal))
    (duplicateStrategy : DuplicateStrategy) (rawIndexes : List Index)
    (colsRes : Except String (List Column)) : Outcome :=
  match duplicateStrategy with
  | .strUpdate =>
    batchInsertMerge env schema tableName columns values duplicateStrategy rawIndexes colsRes
  | _ =>
    batchInsertSimple env schema tableName columns values duplicateStrategy rawIndexes

/-! ## Index introspection and the grouping fold -/

/-- Append `",", col` to the column list of the last entry of `result`
(the Go `result[len(result)-1].ColumnName = ... + "," + v.ColumnName`);
`none` models the index-out-of-range panic when `result` is empty. -/
def appendToLastColumn : List Index → String → Option (List Index)
  | [], _ => none
  | [r], col => some [{ r with columnName := r.columnName ++ "," ++ col }]
  | r :: r2 :: rs, col => (appendToLastColumn (r2 :: rs) col).map (fun l => r :: l)

/-- The grouping loop shared verbatim by `MssqlDialect.getTableIndexWithPK`
and `MysqlMetaData.GetTableIndex`: rows whose index name equals the running
`key` have their column name comma-appended to the last emitted entry,
other rows start a new entry and update `key` (initially `""`). -/
def foldIndexesAux (key : String) (result : List Index) : List Index → Option (List Index)
  | [] => some result
  | v :: rest =>
    if v.indexName = key then
      match appendToLastColumn result v.columnName with
      | none => none
      | some result2 => foldIndexesAux key result2 rest
    else
      foldIndexesAux v.indexName (result ++ [v]) rest

/-- The grouping fold started with an empty key and empty accumulator. -/
def foldIndexesGo (indexs : List Index) : Option (List Index) :=
  foldIndexesAux "" [] indexs

/-- Embedding of `MssqlDialect.getTableIndexWithPK` on the raw query rows:
the function body computes the grouped `result` list (so a panic inside that
loop propagates) but then returns the raw `indexs` list, not `result`. -/
def mssqlGetTableIndexWithPK (rows : List Index) : Option (List Index) :=
  match foldIndexesGo rows with
  | none => none
  | some _grouped => some rows

/-- Embedding of `MssqlDialect.GetTableIndex`: starts from
`getTableIndexWithPK` (its error discarded), then loops over the entries,
`continue`-ing past names with the `PK__` prefix — but the loop body never
appends a surviving entry to `result`, so `result` stays empty. -/
def mssqlGetTableIndex (rows : List Index) : Option (List Index) :=
  match mssqlGetTableIndexWithPK rows with
  | none => none
  | some indexs =>
    some (indexs.foldl
      (fun result v =>
        if strStartsWith v.indexName "PK__" then
          result
        else
          result)
      [])

/-- Embedding of `MysqlMetaData.GetTableIndex`: on query success the grouped
list is returned (this dialect returns `result`, not `indexs`). -/
def mysqlGetTableIndex (queryRes : Except String (List Index)) : GoOutcome (List Index) :=
  match queryRes with
  | .error e => .err e
  | .ok rows =>
    match foldIndexesGo rows with
    | none => .crash
    | some result => .ok result

/-! ## GetPrimaryKey -/

/-- Error taxonomy of `GetPrimaryKey`: the table-not-found business error
(`errorx.NewBiz("[%s] 表不存在", ...)`) versus a propagated query error. -/
inductive PkError where
  | tableNotFound
  | queryErr (e : String)
deriving DecidableEq

/-- The scan loop of `GetPrimaryKey`: the name of the first column flagged
primary key, if any. -/
def firstPkColumnName : List Column → Option String
  | [] => none
  | c :: cs => if c.isPrimaryKey then some c.columnName else firstPkColumnName cs

/-- Embedding of `GetPrimaryKey` (the MSSQL and MySQL implementations are
line-for-line identical): propagate a column-introspection error; fail with
the table-not-found error on zero columns; otherwise return the first column
flagged primary key, else the first column in declaration order. -/
def GetPrimaryKey (colsRes : Except String (List Column)) : Except PkError String :=
  match colsRes with
  | .error e => .error (.queryErr e)
  | .ok [] => .error .tableNotFound
  | .ok (c0 :: rest) =>
    match firstPkColumnName (c0 :: rest) with
    | some name => .ok name
    | none => .ok c0.columnName

/-! ## Canonical type system and the MySQL type maps -/

/-- Modelled from the spec: the canonical column data types shared across
dialects (`dbi.CommonType*` constants, not under `src/`); the constructors
cover exactly the canonical values the MySQL maps in `src/` mention. -/
inductive ColumnDataType where
  | bigint
  | binary
  | blob
  | char
  | datetime
  | date
  | number
  | enum
  | int
  | json
  | longblob
  | longtext
  | mediumblob
  | mediumtext
  | smallint
  | text
  | time
  | timestamp
  | tinyint
  | varbinary
  | varchar
deriving DecidableEq

/-- Modelled from the spec: the display name of a canonical data type
(`dbi.ColumnDataType` is a string-typed enum in `dbi`, not under `src/`). -/
def canonicalName : ColumnDataType → String
  | .bigint => "bigint"
  | .binary => "binary"
  | .blob => "blob"
  | .char => "char"
  | .datetime => "datetime"
  | .date => "date"
  | .number => "number"
  | .enum => "enum"
  | .int => "int"
  | .json => "json"
  | .longblob => "longblob"
  | .longtext => "longtext"
  | .mediumblob => "mediumblob"
  | .mediumtext => "mediumtext"
  | .smallint => "smallint"
  | .text => "text"
  | .time => "time"
  | .timestamp => "timestamp"
  | .tinyint => "tinyint"
  | .varbinary => "varbinary"
  | .varchar => "varchar"

/-- Embedding of the MySQL `commonColumnTypeMap` literal: native MySQL type
string to canonical data type, entry for entry in source order. -/
def commonColumnTypeMap : List (String × ColumnDataType) :=
  [("bigint", .bigint),
   ("binary", .binary),
   ("blob", .blob),
   ("char", .char),
   ("datetime", .datetime),
   ("date", .date),
   ("decimal", .number),
   ("double", .number),
   ("enum", .enum),
   ("float", .number),
   ("int", .int),
   ("json", .json),
   ("longblob", .longblob),
   ("longtext", .longtext),
   ("mediumblob", .blob),
   ("mediumtext", .text),
   ("set", .varchar),
   ("smallint", .smallint),
   ("text", .text),
   ("time", .time),
   ("timestamp", .timestamp),
   ("tinyint", .tinyint),
   ("varbinary", .varbinary),
   ("varchar", .varchar)]

/-- Embedding of the MySQL `mysqlColumnTypeMap` literal: canonical data type
to native MySQL type string, entry for entry in source order. -/
def mysqlColumnTypeMap : List (ColumnDataType × String) :=
  [(.varchar, "varchar"),
   (.char, "char"),
   (.text, "text"),
   (.blob, "blob"),
   (.longblob, "longblob"),
   (.longtext, "longtext"),
   (.binary, "binary"),
   (.mediumblob, "blob"),
   (.mediumtext, "text"),
   (.varbinary, "varbinary"),
   (.int, "int"),
   (.smallint, "smallint"),
   (.tinyint, "tinyint"),
   (.number, "decimal"),
   (.bigint, "bigint"),
   (.datetime, "datetime"),
   (.date, "date"),
   (.time, "time"),
   (.timestamp, "timestamp"),
   (.enum, "enum"),
   (.json, "json")]

/-- Lookup in the native-to-canonical map (Go map indexing). -/
def nativeToCanonical (s : String) : Option ColumnDataType :=
  commonColumnTypeMap.lookup s

/-- Lookup in the canonical-to-native map (Go map indexing). -/
def canonicalToNative (c : ColumnDataType) : Option String :=
  mysqlColumnTypeMap.lookup c

/-- The composed native→canonical→native mapping of the spec's round-trip
property. -/
def nativeRoundTrip (s : String) : Option String :=
  (nativeToCanonical s).bind canonicalToNative

/-! ## MySQL dialect: DDL generation -/

/-- `dbi.Column` as populated by the MySQL `GetColumns` (canonical data type,
boolean nullability, numeric metadata). -/
structure MyColumn where
  tableName : String
  columnName : String
  dataType : ColumnDataType
  columnComment : String
  nullable : Bool
  isPrimaryKey : Bool
  isIdentity : Bool
  columnDefault : String
  charMaxLength : Nat
  numPrecision : Nat
  numScale : Nat
deriving DecidableEq

/-- Modelled from the spec + `GetIdentifierQuoteString` in `src/` (which
returns the backtick): the MySQL identifier quoting function. -/
def mysqlQuoteIdentifier (s : String) : String := "`" ++ s ++ "`"

/-- The `strings.NewReplacer(";", "", "'", "")` used by the MySQL DDL
generators to sanitize comments. -/
def goReplacerSemiQuote (s : String) : String :=
  strReplace (strReplace s ";" "") "\x27" ""

/-- Modelled from the spec: `collx.ArrayAnyMatches` (not under `src/`):
whether any of the given patterns occurs in `s`. -/
def arrayAnyMatches (patterns : List String) (s : String) : Bool :=
  patterns.any (fun p => strContains s p)

/-- Model of Go `strings.ToLower` restricted to ASCII. -/
def strToLower (s : String) : String :=
  String.mk (s.data.map (fun c =>
    if 65 ≤ c.toNat ∧ c.toNat ≤ 90 then Char.ofNat (c.toNat + 32) else c))

/-- Model of Go `strings.ToUpper` restricted to ASCII. -/
def strToUpper (s : String) : String :=
  String.mk (s.data.map (fun c =>
    if 97 ≤ c.toNat ∧ c.toNat ≤ 122 then Char.ofNat (c.toNat - 32) else c))

/-- Modelled from the spec: `dbi.Column.GetColumnType` (not under `src/`)
renders the per-dialect native type string of a column, with the character
length appended where one is recorded. -/
def getColumnType (c : MyColumn) : String :=
  let base := (canonicalToNative c.dataType).getD (canonicalName c.dataType)
  if c.charMaxLength > 0 then base ++ "(" ++ toString c.charMaxLength ++ ")" else base

/-- Embedding of `MysqlMetaData.genColumnBasicSql`: quoted name, native type,
nullability, auto-increment marker, quoted-or-raw default (defaults containing
`(` are dropped; string-ish types are quoted unless a date/time type has a
date/time-function default), and sanitized comment. -/
def genColumnBasicSql (c : MyColumn) : String :=
  let dataType := canonicalName c.dataType
  let incr := if c.isIdentity then " AUTO_INCREMENT" else ""
  let nullAble := if c.nullable then "" else " NOT NULL"
  let defVal :=
    if c.columnDefault ≠ "" ∧ ¬ (strContains c.columnDefault "(" = true) then
      let mark :=
        if arrayAnyMatches ["char", "text", "date", "time", "lob"] (strToLower dataType) then
          if arrayAnyMatches ["date", "time"] (strToLower dataType) ∧
              arrayAnyMatches ["DATE", "TIME"] (strToUpper c.columnDefault) then
            false
          else true
        else false
      if mark then " DEFAULT \x27" ++ c.columnDefault ++ "\x27"
      else " DEFAULT " ++ c.columnDefault
    else ""
  let comment :=
    if c.columnComment ≠ "" then
      " COMMENT \x27" ++ goReplacerSemiQuote c.columnComment ++ "\x27"
    else ""
  " " ++ mysqlQuoteIdentifier c.columnName ++ " " ++ getColumnType c ++ " " ++
    nullAble ++ " " ++ incr ++ " " ++ defVal ++ " " ++ comment

/-- Embedding of `MysqlMetaData.GenerateTableDDL`: optional drop statement,
then one `CREATE TABLE` with the per-column fragments, the primary-key
clause when primary-key columns exist, the engine/charset suffix and the
sanitized table comment. -/
def generateTableDDL (columns : List MyColumn) (tableInfo : Table)
    (dropBeforeCreate : Bool) : List String :=
  let sqlArr : List String :=
    if dropBeforeCreate then
      ["DROP TABLE IF EXISTS " ++ mysqlQuoteIdentifier tableInfo.tableName ++ ";"]
    else []
  let pks := (columns.filter (fun c => c.isPrimaryKey)).map (fun c => c.columnName)
  let fields := columns.map genColumnBasicSql
  let createSql :=
    "CREATE TABLE " ++ mysqlQuoteIdentifier tableInfo.tableName ++ " (\n" ++
    goJoin ",\n" fields ++
    (if pks ≠ [] then ", \nPRIMARY KEY (" ++ goJoin "," pks ++ ")" else "") ++
    ") ENGINE=InnoDB DEFAULT CHARSET=utf8mb4 " ++
    (if tableInfo.tableComment ≠ "" then
      " COMMENT \x27" ++ goReplacerSemiQuote tableInfo.tableComment ++ "\x27"
    else "")
  sqlArr ++ [createSql]

/-- Embedding of `MysqlMetaData.GenerateIndexDDL`: one `ALTER TABLE ... ADD
... INDEX` statement per folded index, with the synthetic index name built
from the key type, table name and squashed column list. -/
def generateIndexDDL (indexs : List Index) (tableInfo : Table) : List String :=
  indexs.map (fun index =>
    let columnName := strReplace (strReplace index.columnName "-" "") "_" ""
    let colName := strReplace columnName "," "_"
    let keyType := if index.isUnique then "unique" else "normal"
    let unique := if index.isUnique then "unique" else ""
    let indexName := keyType ++ "_key_" ++ tableInfo.tableName ++ "_" ++ colName
    "ALTER TABLE " ++ mysqlQuoteIdentifier tableInfo.tableName ++ " ADD " ++
      unique ++ " INDEX " ++ indexName ++ "(" ++ index.columnName ++
      ") USING BTREE COMMENT \x27" ++ goReplacerSemiQuote index.indexComment ++ "\x27")

/-- Embedding of `MysqlMetaData.GetTableDDL`.  The Go code reads
`tbs, err := md.GetTables(tableName)` and guards with
`if err != nil && len(tbs) > 0` — a conjunction, so the guard never fires on
the interesting inputs: with an error `tbs` is nil (guard false) and with an
empty no-error result the guard is also false, and either way execution
reaches `tbs[0]`, an out-of-range access modelled as `crash`.  After that the
column lookup error propagates, the table DDL is generated, the folded index
list is fetched (its error propagating, a fold panic crashing) and the index
DDL statements are appended, all joined with `";\n"`. -/
def mysqlGetTableDDL (tablesRes : Except String (List Table))
    (columnsRes : Except String (List MyColumn))
    (indexQueryRes : Except String (List Index)) : GoOutcome String :=
  match tablesRes with
  | .error _ => .crash
  | .ok [] => .crash
  | .ok (t0 :: _) =>
    let tableInfo : Table :=
      { tableName := t0.tableName, tableComment := t0.tableComment,
        createTime := "", tableRows := 0, dataLength := 0, indexLength := 0 }
    match columnsRes with
    | .error e => .err e
    | .ok columns =>
      let tableDDLArr := generateTableDDL columns tableInfo false
      match mysqlGetTableIndex indexQueryRes with
      | .err e => .err e
      | .crash => .crash
      | .ok indexs =>
        .ok (goJoin ";\n" (tableDDLArr ++ generateIndexDDL indexs tableInfo))

/-! ## Data converter: ParseData and the Go time layouts -/

/-- The numeric value of an ASCII digit character. -/
def digitVal? (c : Char) : Option Nat :=
  if 48 ≤ c.toNat ∧ c.toNat ≤ 57 then some (c.toNat - 48) else none

/-- Parse exactly two digits. -/
def parse2 : List Char → Option (Nat × List Char)
  | a :: b :: rest => do
    let x ← digitVal? a
    let y ← digitVal? b
    pure (10 * x + y, rest)
  | _ => none

/-- Parse exactly four digits. -/
def parse4 (l : List Char) : Option (Nat × List Char) := do
  let (hi, l1) ← parse2 l
  let (lo, l2) ← parse2 l1
  pure (100 * hi + lo, l2)

/-- Consume one expected character. -/
def expectCh (c : Char) : List Char → Option (List Char)
  | x :: rest => if x = c then some rest else none
  | [] => none

/-- Gregorian leap-year rule, as Go's `time` package applies it. -/
def isLeapYear (y : Nat) : Bool :=
  (y % 4 = 0 ∧ ¬ y % 100 = 0) ∨ y % 400 = 0

/-- Days in a month, with February depending on the leap-year rule. -/
def daysInMonth (y m : Nat) : Nat :=
  if m = 2 then (if isLeapYear y then 29 else 28)
  else if m = 4 ∨ m = 6 ∨ m = 9 ∨ m = 11 then 30
  else 31

/-- Parse `yyyy-mm-dd` with Go's range validation (month 1–12, day within
the month). -/
def parseDatePart (l : List Char) : Option (Nat × Nat × Nat × List Char) := do
  let (y, l1) ← parse4 l
  let l2 ← expectCh '-' l1
  let (m, l3) ← parse2 l2
  let l4 ← expectCh '-' l3
  let (d, l5) ← parse2 l4
  if 1 ≤ m ∧ m ≤ 12 ∧ 1 ≤ d ∧ d ≤ daysInMonth y m then pure (y, m, d, l5) else none

/-- Parse `hh:mm:ss` with Go's range validation. -/
def parseClockPart (l : List Char) : Option (Nat × Nat × Nat × List Char) := do
  let (h, l1) ← parse2 l
  let l2 ← expectCh ':' l1
  let (mi, l3) ← parse2 l2
  let l4 ← expectCh ':' l3
  let (s, l5) ← parse2 l4
  if h ≤ 23 ∧ mi ≤ 59 ∧ s ≤ 59 then pure (h, mi, s, l5) else none

/-- Model of Go `time.Parse(time.DateOnly, s)` (layout `2006-01-02`):
the parsed calendar date at midnight, or `none` on any mismatch. -/
def goParseDateOnly (s : String) : Option GoTime :=
  match parseDatePart s.data with
  | some (y, m, d, []) => some ⟨y, m, d, 0, 0, 0⟩
  | _ => none

/-- Model of Go `time.Parse(time.TimeOnly, s)` (layout `15:04:05`); Go
defaults the date fields of a time-only parse to January 1 of year 0. -/
def goParseTimeOnly (s : String) : Option GoTime :=
  match parseClockPart s.data with
  | some (h, mi, sec, []) => some ⟨0, 1, 1, h, mi, sec⟩
  | _ => none

/-- Model of Go `time.Parse(time.DateTime, s)` (layout `2006-01-02 15:04:05`). -/
def goParseDateTime (s : String) : Option GoTime :=
  match parseDatePart s.data with
  | some (y, m, d, rest) =>
    match expectCh ' ' rest with
    | some rest2 =>
      match parseClockPart rest2 with
      | some (h, mi, sec, []) => some ⟨y, m, d, h, mi, sec⟩
      | _ => none
    | none => none
  | _ => none

/-- Consume an RFC 3339 zone designator: `Z` or `±hh:mm`. -/
def parseZone : List Char → Option (List Char)
  | 'Z' :: rest => some rest
  | c :: rest =>
    if c = '+' ∨ c = '-' then
      match parse2 rest with
      | some (h, l1) =>
        match expectCh ':' l1 with
        | some l2 =>
          match parse2 l2 with
          | some (mi, l3) => if h ≤ 23 ∧ mi ≤ 59 then some l3 else none
          | none => none
        | none => none
      | none => none
    else none
  | [] => none

/-- Model of Go `time.Parse(time.RFC3339, s)` (layout
`2006-01-02T15:04:05Z07:00`), keeping the wall-clock fields as written and
discarding the offset, which the embedded code never reads. -/
def goParseRFC3339 (s : String) : Option GoTime :=
  match parseDatePart s.data with
  | some (y, m, d, rest) =>
    match expectCh 'T' rest with
    | some rest2 =>
      match parseClockPart rest2 with
      | some (h, mi, sec, rest3) =>
        match parseZone rest3 with
        | some [] => some ⟨y, m, d, h, mi, sec⟩
        | _ => none
      | none => none
    | none => none
  | none => none

/-- Embedding of the MSSQL `DataConverter.ParseData`: a string input is
parsed for the DateTime (RFC 3339), Date (date-only) and Time (time-only)
kinds, the parse error discarded so a failure yields the zero `time.Time`;
every other input/kind combination is returned unchanged. -/
def mssqlParseData (dbColumnValue : GoVal) (dataType : DataType) : GoVal :=
  match dbColumnValue, dataType with
  | .str s, .dateTime => .time ((goParseRFC3339 s).getD zeroTime)
  | .str s, .date => .time ((goParseDateOnly s).getD zeroTime)
  | .str s, .time => .time ((goParseTimeOnly s).getD zeroTime)
  | v, _ => v

/-- Embedding of the MySQL `DataConverter.ParseData`: identical shape, with
the DateTime kind parsed under the `time.DateTime` layout instead of
RFC 3339. -/
def mysqlParseData (dbColumnValue : GoVal) (dataType : DataType) : GoVal :=
  match dbColumnValue, dataType with
  | .str s, .dateTime => .time ((goParseDateTime s).getD zeroTime)
  | .str s, .date => .time ((goParseDateOnly s).getD zeroTime)
  | .str s, .time => .time ((goParseTimeOnly s).getD zeroTime)
  | v, _ => v

/-! ## Helper lemmas -/

theorem trimSuffix_comma_of_data (s : String) (l : List Char) (h : s.data = l ++ [',']) :
    trimSuffix s "," = String.mk l := by
  have h2 : ("," : String).data <:+ s.data := by
    rw [h]
    exact List.suffix_append l [',']
  have hsuf : ("," : String).data.isSuffixOf s.data = true := by
    simpa [List.isSuffixOf_iff_suffix] using h2
  unfold trimSuffix
  rw [if_pos]
  · congr 1
    rw [h]
    have hlen : (l ++ [',']).length - ("," : String).data.length = l.length := by
      simp
    rw [hlen]
    exact List.take_left l [',']
  · exact of_decide_eq_true (by rw [decide_eq_true_eq]; exact hsuf ▸ rfl)

theorem strRepeat_comma_data (x : String) :
    ∀ n, (strRepeat (x ++ ",") (n + 1)).data =
      (goJoin "," (List.replicate (n + 1) x)).data ++ [','] := by
  intro n
  induction n with
  | zero =>
    show ((x ++ ",") ++ "").data = (goJoin "," [x]).data ++ [',']
    simp [goJoin, String.data_append]
  | succ n ih =>
    show ((x ++ ",") ++ strRepeat (x ++ ",") (n + 1)).data
      = (goJoin "," (List.replicate (n + 2) x)).data ++ [',']
    rw [String.data_append, ih]
    show x.data ++ [','] ++ _ = _
    have hrep : List.replicate (n + 2) x = x :: x :: List.replicate n x := by
      simp [List.replicate_succ]
    rw [hrep]
    show _ = (x ++ "," ++ goJoin "," (x :: List.replicate n x)).data ++ [',']
    have h2 : List.replicate (n + 1) x = x :: List.replicate n x := by
      simp [List.replicate_succ]
    rw [← h2]
    simp [String.data_append, List.append_assoc]

/-- The Go repeat-then-trim placeholder construction equals joining `n`
copies of `x` with commas. -/
theorem trimSuffix_strRepeat (x : String) :
    ∀ n, trimSuffix (strRepeat (x ++ ",") n) "," = goJoin "," (List.replicate n x) := by
  intro n
  cases n with
  | zero => rfl
  | succ n =>
    rw [trimSuffix_comma_of_data _ _ (strRepeat_comma_data x n)]

/-- The placeholder string of `batchInsertSimple` is `numRows` comma-joined
copies of a parenthesized group of `numCols` comma-joined `?` marks. -/
theorem goPlaceholders_eq (numCols numRows : Nat) :
    goPlaceholders numCols numRows =
      goJoin "," (List.replicate numRows
        ("(" ++ goJoin "," (List.replicate numCols "?") ++ ")")) := by
  unfold goPlaceholders
  have h1 : strRepeat "?," numCols = strRepeat ("?" ++ ",") numCols := rfl
  rw [h1, trimSuffix_strRepeat, trimSuffix_strRepeat]

theorem str_append_right_ne (A B : String) (hB : B.data ≠ []) : A ++ B ≠ "" := by
  intro h
  have hd : (A ++ B).data = [] := by rw [h]
  rw [String.data_append] at hd
  exact hB (List.append_eq_nil.mp hd).2

theorem ignoreDupSqlOf_ne (schema tableName : String) (u : List String) :
    ignoreDupSqlOf schema tableName u ≠ "" := by
  unfold ignoreDupSqlOf
  exact str_append_right_ne _ _ (by decide)

/-- The scan loop of `GetPrimaryKey` returns the name of the first column
satisfying the primary-key predicate, in the `List.find?` sense. -/
theorem firstPkColumnName_eq_find (cs : List Column) :
    firstPkColumnName cs =
      (cs.find? (fun c => c.isPrimaryKey)).map (fun c => c.columnName) := by
  induction cs with
  | nil => rfl
  | cons c cs ih =>
    by_cases hp : c.isPrimaryKey
    · simp [firstPkColumnName, List.find?_cons_of_pos, hp]
    · simp only [Bool.not_eq_true] at hp
      simp [firstPkColumnName, List.find?_cons_of_neg, hp, ih]

/-! ## Claim theorems -/

set_option maxRecDepth 4000

/-- C1 (amended): for every batch insert with strategy Ignore on a table
whose unique indexes yield a non-empty union of columns, the loader executes
the `uniqueRows` `ADD CONSTRAINT ... IGNORE_DUP_KEY = ON` statement before
the insert and, after the insert and regardless of the insert's result
(the trace is the same for every execution environment, so also when the
insert fails), re-executes the same `ADD CONSTRAINT` statement with `OFF`
substituted, its own result discarded.  No `DROP CONSTRAINT` statement is
ever issued, so the temporary constraint is toggled, not removed. -/
theorem ignore_dup_constraint_cleanup (env : ExecEnv) (schema tableName : String)
    (columns : List String) (values : List (List GoVal)) (rawIndexes : List Index)
    (colsRes : Except String (List Column))
    (h : uniqueColumnsOf rawIndexes ≠ []) :
    BatchInsert env schema tableName columns values .strIgnore rawIndexes colsRes =
      { trace := [(strReplace (ignoreDupSqlOf schema tableName (uniqueColumnsOf rawIndexes))
            "\x7bsign\x7d" "ON", []),
          (identityInsertOnOf schema tableName ++ " " ++
            ("insert into " ++ (quoteIdentifier schema ++ "." ++ quoteIdentifier tableName) ++
              " (" ++ goJoin "," columns ++ ") values " ++
              goPlaceholders columns.length values.length), values.flatten),
          (strReplace (ignoreDupSqlOf schema tableName (uniqueColumnsOf rawIndexes))
            "\x7bsign\x7d" "OFF", [])],
        logs := [],
        res := env (identityInsertOnOf schema tableName ++ " " ++
            ("insert into " ++ (quoteIdentifier schema ++ "." ++ quoteIdentifier tableName) ++
              " (" ++ goJoin "," columns ++ ") values " ++
              goPlaceholders columns.length values.length)) values.flatten } := by
  show batchInsertSimple env schema tableName columns values .strIgnore rawIndexes = _
  simp only [batchInsertSimple]
  rw [if_pos h, if_pos (ignoreDupSqlOf_ne schema tableName (uniqueColumnsOf rawIndexes))]
  rfl

/-- Witness for C1: a concrete Ignore-strategy insert against a failing
engine still attempts all three statements. -/
theorem ignore_dup_constraint_cleanup_witness :
    (BatchInsert (fun _ _ => Except.error "dup") "dbo" "t" ["a"] [[GoVal.int 1]]
      .strIgnore [⟨"ux_a", "a", "NONCLUSTERED", "", true, 1⟩] (.ok [])).trace.length = 3 := by
  have h := ignore_dup_constraint_cleanup (fun _ _ => Except.error "dup") "dbo" "t"
    ["a"] [[GoVal.int 1]] [⟨"ux_a", "a", "NONCLUSTERED", "", true, 1⟩]
    (Except.ok []) (by decide)
  rw [h]
  rfl

/-- C1 counterexample: on a concrete Ignore-strategy insert whose insert
statement fails, the full statement trace is exhibited: the post-insert
cleanup is the same `ALTER TABLE ... ADD CONSTRAINT uniqueRows ...` text with
`IGNORE_DUP_KEY = OFF`, and no attempted statement contains `DROP`, so no
constraint-removal statement is ever issued and the temporary constraint is
not absent after the call. -/
theorem ignore_dup_constraint_not_removed_cex :
    (BatchInsert (fun _ _ => Except.error "duplicate key") "dbo" "t" ["a"] [[GoVal.int 1]]
        .strIgnore [⟨"ux_a", "a", "NONCLUSTERED", "", true, 1⟩] (.ok [])).trace =
      [("ALTER TABLE dbo.t ADD CONSTRAINT uniqueRows UNIQUE (a) WITH (IGNORE_DUP_KEY = ON)", []),
       ("SET IDENTITY_INSERT [dbo].[t] ON insert into [dbo].[t] (a) values (?)", [GoVal.int 1]),
       ("ALTER TABLE dbo.t ADD CONSTRAINT uniqueRows UNIQUE (a) WITH (IGNORE_DUP_KEY = OFF)", [])] ∧
    (BatchInsert (fun _ _ => Except.error "duplicate key") "dbo" "t" ["a"] [[GoVal.int 1]]
        .strIgnore [⟨"ux_a", "a", "NONCLUSTERED", "", true, 1⟩] (.ok [])).res =
      .error "duplicate key" ∧
    ((BatchInsert (fun _ _ => Except.error "duplicate key") "dbo" "t" ["a"] [[GoVal.int 1]]
        .strIgnore [⟨"ux_a", "a", "NONCLUSTERED", "", true, 1⟩] (.ok [])).trace.all
      (fun p => ! strContains p.1 "DROP")) = true := by decide

/-- C2 (amended): for every columns list and row matrix, batch insert with
strategy None executes exactly one statement: the multi-row `INSERT` whose
placeholder text is one parenthesized group of `columns.length` question
marks per row, bound to the row-major flattened argument list, with the
`SET IDENTITY_INSERT ... ON` toggle prepended to that same statement text.
The trace has a single element, so no `OFF` attempt follows the insert. -/
theorem batch_insert_none_single_statement (env : ExecEnv) (schema tableName : String)
    (columns : List String) (values : List (List GoVal)) (rawIndexes : List Index)
    (colsRes : Except String (List Column)) :
    BatchInsert env schema tableName columns values .strNone rawIndexes colsRes =
      { trace := [(identityInsertOnOf schema tableName ++ " " ++
          ("insert into " ++ (quoteIdentifier schema ++ "." ++ quoteIdentifier tableName) ++
            " (" ++ goJoin "," columns ++ ") values " ++
            goJoin "," (List.replicate values.length
              ("(" ++ goJoin "," (List.replicate columns.length "?") ++ ")"))),
          values.flatten)],
        logs := [],
        res := env (identityInsertOnOf schema tableName ++ " " ++
          ("insert into " ++ (quoteIdentifier schema ++ "." ++ quoteIdentifier tableName) ++
            " (" ++ goJoin "," columns ++ ") values " ++
            goJoin "," (List.replicate values.length
              ("(" ++ goJoin "," (List.replicate columns.length "?") ++ ")"))))
          values.flatten } := by
  show batchInsertSimple env schema tableName columns values .strNone rawIndexes = _
  simp only [batchInsertSimple, goPlaceholders_eq]
  rfl

/-- C2 counterexample: the spec's end-to-end scenario (columns `id,name`,
rows `(1,a),(2,b)`, strategy None): exactly one statement is executed,
binding the four arguments in row-major order — and no statement containing
an ` OFF` toggle is ever attempted, refuting the claimed post-insert
identity-insert `OFF` attempt. -/
theorem batch_insert_none_no_off_cex :
    (BatchInsert (fun _ _ => Except.ok 2) "dbo" "tbl" ["id", "name"]
        [[.int 1, .str "a"], [.int 2, .str "b"]] .strNone [] (.ok [])).trace =
      [("SET IDENTITY_INSERT [dbo].[tbl] ON insert into [dbo].[tbl] (id,name) values (?,?),(?,?)",
        [.int 1, .str "a", .int 2, .str "b"])] ∧
    ((BatchInsert (fun _ _ => Except.ok 2) "dbo" "tbl" ["id", "name"]
        [[.int 1, .str "a"], [.int 2, .str "b"]] .strNone [] (.ok [])).trace.all
      (fun p => ! strContains p.1 " OFF")) = true := by decide

/-- C3: on a raw result set of two rows sharing the index name `idx_ab`
(columns `a` then `b`, ordered by sequence), the MySQL fold returns exactly
one entry with the comma-joined column list `a,b` in sequence order — but
the MSSQL `getTableIndexWithPK` returns the two raw rows unfolded, because
the function computes the grouped list and then returns the raw `indexs`
variable instead. -/
theorem mssql_index_fold_discarded_bug :
    mssqlGetTableIndexWithPK
        [⟨"idx_ab", "a", "NONCLUSTERED", "", true, 1⟩,
         ⟨"idx_ab", "b", "NONCLUSTERED", "", true, 2⟩] =
      some [⟨"idx_ab", "a", "NONCLUSTERED", "", true, 1⟩,
            ⟨"idx_ab", "b", "NONCLUSTERED", "", true, 2⟩] ∧
    mysqlGetTableIndex
        (.ok [⟨"idx_ab", "a", "NONCLUSTERED", "", true, 1⟩,
              ⟨"idx_ab", "b", "NONCLUSTERED", "", true, 2⟩]) =
      .ok [⟨"idx_ab", "a,b", "NONCLUSTERED", "", true, 1⟩] := by decide

/-- C4: the MSSQL `GetTableIndex` returns the empty list even for a table
with one declared non-primary-key index `IX_a` (its filter loop never
appends a surviving entry), while a table with no declared indexes indeed
yields an empty sequence without error, and a `PK__`-named unique index is
still retained when computing the Ignore strategy's duplicate-detection
column set. -/
theorem mssql_get_table_index_always_empty_bug :
    mssqlGetTableIndex [⟨"IX_a", "a", "NONCLUSTERED", "", false, 1⟩] = some [] ∧
    mssqlGetTableIndex [] = some [] ∧
    uniqueColumnsOf [⟨"PK__t__ABC123", "id", "CLUSTERED", "", true, 1⟩] = ["id"] := by decide

/-- C5 (amended): in the Update (merge) strategy, a failure of the
metadata lookup is not surfaced: the unchecked error leaves the column list
empty and the call behaves exactly like the simple-insert fallback.  When a
primary key exists, the merge statement's execution result is returned to
the caller unchanged — in particular an execution failure is surfaced as
exactly the engine's error text — and on failure the log line contains the
failing merge statement, which the returned error value does not. -/
theorem merge_failure_semantics :
    (∀ (env : ExecEnv) (schema tableName : String) (columns : List String)
        (values : List (List GoVal)) (strat : DuplicateStrategy)
        (rawIndexes : List Index) (e : String),
      batchInsertMerge env schema tableName columns values strat rawIndexes (.error e) =
        batchInsertSimple env schema tableName columns values strat rawIndexes) ∧
    (∀ (env : ExecEnv) (schema tableName : String) (columns : List String)
        (values : List (List GoVal)) (strat : DuplicateStrategy)
        (rawIndexes : List Index) (cols : List Column),
      pkColsOf cols ≠ [] →
      (batchInsertMerge env schema tableName columns values strat rawIndexes (.ok cols)).res =
        env (identityInsertOnOf schema tableName ++ " " ++
          mergeSqlTempOf schema tableName columns cols values.length ++ ";") values.flatten ∧
      ∀ e, env (identityInsertOnOf schema tableName ++ " " ++
          mergeSqlTempOf schema tableName columns cols values.length ++ ";") values.flatten =
            .error e →
        (batchInsertMerge env schema tableName columns values strat rawIndexes (.ok cols)).res =
            .error e ∧
        (batchInsertMerge env schema tableName columns values strat rawIndexes (.ok cols)).logs =
          ["执行sql失败：" ++ e ++ ", sql: [ " ++
            mergeSqlTempOf schema tableName columns cols values.length ++ " ]"]) := by
  constructor
  · intro env schema tableName columns values strat rawIndexes e
    rfl
  · intro env schema tableName columns values strat rawIndexes cols h
    refine ⟨?_, ?_⟩
    · simp only [batchInsertMerge]
      rw [if_neg h]
    · intro e he
      simp only [batchInsertMerge]
      rw [if_neg h]
      simp only [he]
      exact ⟨trivial, trivial⟩

/-- Witness for C5: a concrete failed metadata lookup yields the simple
insert's successful result (no error surfaced), and a concrete failed merge
execution returns exactly the engine's error text. -/
theorem merge_failure_semantics_witness :
    (batchInsertMerge (fun _ _ => Except.ok 1) "s" "t" ["id"] [[GoVal.int 1]]
      DuplicateStrategy.strUpdate [] (Except.error "boom")).res = Except.ok 1 ∧
    (batchInsertMerge (fun _ _ => Except.error "efail") "s" "t" ["id"] [[GoVal.int 1]]
      DuplicateStrategy.strUpdate []
      (Except.ok [⟨"t", "id", "int", "NO", true, false, ""⟩])).res = Except.error "efail" := by
  constructor
  · have h := merge_failure_semantics.1 (fun _ _ => Except.ok 1) "s" "t" ["id"]
      [[GoVal.int 1]] DuplicateStrategy.strUpdate [] "boom"
    rw [h]
    rfl
  · exact ((merge_failure_semantics.2 (fun _ _ => Except.error "efail") "s" "t" ["id"]
      [[GoVal.int 1]] DuplicateStrategy.strUpdate []
      [⟨"t", "id", "int", "NO", true, false, ""⟩] (by decide)).2 "efail" rfl).1

/-- C5 counterexample: with a concrete failing metadata lookup inside the
Update strategy and an engine that accepts the fallback insert, the call
returns success — the metadata failure is not surfaced as an error to the
caller. -/
theorem merge_metadata_error_swallowed_cex :
    (batchInsertMerge (fun _ _ => Except.ok 1) "dbo" "t" ["id"] [[GoVal.int 1]]
      .strUpdate [] (.error "metadata failure")).res = .ok 1 := by decide

/-- C6: for every batch insert with strategy Update on a table whose
introspected columns carry no primary-key flag, the call is equal, as a
whole outcome (statement trace, logs and returned result), to the strategy
None call — the simple-insert fallback, with no merge statement constructed
and no error raised on account of the missing primary key. -/
theorem merge_no_pk_falls_back_to_simple (env : ExecEnv) (schema tableName : String)
    (columns : List String) (values : List (List GoVal)) (rawIndexes : List Index)
    (cols : List Column) (colsRes2 : Except String (List Column))
    (h : ∀ c ∈ cols, c.isPrimaryKey = false) :
    BatchInsert env schema tableName columns values .strUpdate rawIndexes (.ok cols) =
      BatchInsert env schema tableName columns values .strNone rawIndexes colsRes2 := by
  show batchInsertMerge env schema tableName columns values .strUpdate rawIndexes (.ok cols) =
    batchInsertSimple env schema tableName columns values .strNone rawIndexes
  have hpk : pkColsOf cols = [] := by
    unfold pkColsOf
    rw [List.filter_eq_nil_iff.mpr (fun c hc => by rw [h c hc]; exact Bool.false_ne_true)]
    rfl
  simp only [batchInsertMerge]
  rw [if_pos hpk]
  rfl

/-- Witness for C6: a concrete Update-strategy insert on a one-column table
with no primary key equals the None-strategy call. -/
theorem merge_no_pk_falls_back_to_simple_witness :
    BatchInsert (fun _ _ => Except.ok 2) "s" "t" ["a"] [[GoVal.int 1]] .strUpdate []
        (.ok [⟨"t", "a", "int", "YES", false, false, ""⟩]) =
      BatchInsert (fun _ _ => Except.ok 2) "s" "t" ["a"] [[GoVal.int 1]] .strNone [] (.ok []) :=
  merge_no_pk_falls_back_to_simple (fun _ _ => Except.ok 2) "s" "t" ["a"] [[GoVal.int 1]]
    [] [⟨"t", "a", "int", "YES", false, false, ""⟩] (.ok []) (by decide)

/-- C7: `GetPrimaryKey` fails with the table-not-found error exactly when
the column introspection succeeds with zero columns; when it succeeds with
columns it returns the name of the first column flagged primary key in
declaration order (the `List.find?` witness), and with no flagged column it
returns the first column's name without error. -/
theorem get_primary_key_spec (colsRes : Except String (List Column)) :
    (GetPrimaryKey colsRes = .error .tableNotFound ↔ colsRes = .ok []) ∧
    (∀ cs c, colsRes = .ok cs → cs.find? (fun x => x.isPrimaryKey) = some c →
      GetPrimaryKey colsRes = .ok c.columnName) ∧
    (∀ c0 cs, colsRes = .ok (c0 :: cs) → (∀ x ∈ c0 :: cs, x.isPrimaryKey = false) →
      GetPrimaryKey colsRes = .ok c0.columnName) := by
  refine ⟨?_, ?_, ?_⟩
  · match colsRes with
    | .error e => simp [GetPrimaryKey]
    | .ok [] => simp [GetPrimaryKey]
    | .ok (c0 :: rest) =>
      cases hf : firstPkColumnName (c0 :: rest) <;>
        simp [GetPrimaryKey, hf]
  · intro cs c hres hfind
    subst hres
    match cs, hfind with
    | c0 :: rest, hfind =>
      have hfp : firstPkColumnName (c0 :: rest) = some c.columnName := by
        rw [firstPkColumnName_eq_find, hfind]
        rfl
      simp [GetPrimaryKey, hfp]
  · intro c0 cs hres hnone
    subst hres
    have hfind : (c0 :: cs).find? (fun x => x.isPrimaryKey) = none :=
      List.find?_eq_none.mpr (fun x hx => by rw [hnone x hx]; exact Bool.false_ne_true)
    have hfp : firstPkColumnName (c0 :: cs) = none := by
      rw [firstPkColumnName_eq_find, hfind]
      rfl
    simp [GetPrimaryKey, hfp]

/-- Witness for C7: zero columns give the table-not-found error; the first
flagged primary key (`b`) is returned; without a flag the first column (`a`)
is returned. -/
theorem get_primary_key_spec_witness :
    GetPrimaryKey (.ok ([] : List Column)) = .error .tableNotFound ∧
    GetPrimaryKey (.ok [⟨"t", "a", "int", "YES", false, false, ""⟩,
                        ⟨"t", "b", "int", "NO", true, false, ""⟩]) = .ok "b" ∧
    GetPrimaryKey (.ok [⟨"t", "a", "int", "YES", false, false, ""⟩]) = .ok "a" := by
  refine ⟨?_, ?_, ?_⟩
  · exact (get_primary_key_spec (.ok [])).1.mpr rfl
  · exact (get_primary_key_spec _).2.1 _ ⟨"t", "b", "int", "NO", true, false, ""⟩ rfl (by decide)
  · exact (get_primary_key_spec _).2.2 ⟨"t", "a", "int", "YES", false, false, ""⟩ [] rfl (by decide)

/-- C8: for every entry of the native-to-canonical map, the
canonical-to-native map contains the canonical image (the bidirectional
mapping is total over the mapped types), the native key looks up to exactly
its canonical image, and the composed native→canonical→native mapping is
idempotent: applied to its own output it returns that output again. -/
theorem type_map_round_trip : ∀ p ∈ commonColumnTypeMap,
    (canonicalToNative p.2).isSome = true ∧
    nativeToCanonical p.1 = some p.2 ∧
    (nativeRoundTrip p.1).isSome = true ∧
    (nativeRoundTrip p.1).bind nativeRoundTrip = nativeRoundTrip p.1 := by decide

/-- Witness for C8: the round-trip property instantiated at the `bigint`
entry. -/
theorem type_map_round_trip_witness :
    (canonicalToNative ColumnDataType.bigint).isSome = true ∧
    nativeToCanonical "bigint" = some ColumnDataType.bigint ∧
    (nativeRoundTrip "bigint").isSome = true ∧
    (nativeRoundTrip "bigint").bind nativeRoundTrip = nativeRoundTrip "bigint" :=
  type_map_round_trip ("bigint", ColumnDataType.bigint) (by decide)

/-- C9: both dialects' `ParseData` act only on textual input — any
non-string value and any string under a kind other than DateTime/Date/Time
is returned unchanged; a string under those kinds is parsed with the fixed
per-kind layout (RFC 3339 for MSSQL DateTime, the `2006-01-02 15:04:05`
layout for MySQL DateTime, date-only and time-only otherwise), a parse
failure yielding the zero `time.Time` rather than an error; and concretely
`2024-01-05` parses to that date while `not-a-date` yields the zero value. -/
theorem parse_data_spec :
    (∀ (v : GoVal) (t : DataType), v.isStrVal = false →
      mssqlParseData v t = v ∧ mysqlParseData v t = v) ∧
    (∀ (s : String) (t : DataType), t ≠ .dateTime → t ≠ .date → t ≠ .time →
      mssqlParseData (.str s) t = .str s ∧ mysqlParseData (.str s) t = .str s) ∧
    (∀ s : String,
      mssqlParseData (.str s) .date = .time ((goParseDateOnly s).getD zeroTime) ∧
      mysqlParseData (.str s) .date = .time ((goParseDateOnly s).getD zeroTime) ∧
      mssqlParseData (.str s) .dateTime = .time ((goParseRFC3339 s).getD zeroTime) ∧
      mysqlParseData (.str s) .dateTime = .time ((goParseDateTime s).getD zeroTime) ∧
      mssqlParseData (.str s) .time = .time ((goParseTimeOnly s).getD zeroTime) ∧
      mysqlParseData (.str s) .time = .time ((goParseTimeOnly s).getD zeroTime)) ∧
    (mssqlParseData (.str "2024-01-05") .date = .time ⟨2024, 1, 5, 0, 0, 0⟩ ∧
     mysqlParseData (.str "2024-01-05") .date = .time ⟨2024, 1, 5, 0, 0, 0⟩ ∧
     mssqlParseData (.str "not-a-date") .date = .time zeroTime ∧
     mysqlParseData (.str "not-a-date") .date = .time zeroTime) := by
  refine ⟨?_, ?_, ?_, by decide⟩
  · intro v t h
    cases v with
    | str s => exact absurd h (by simp [GoVal.isStrVal])
    | int n => cases t <;> exact ⟨rfl, rfl⟩
    | time tv => cases t <;> exact ⟨rfl, rfl⟩
    | null => cases t <;> exact ⟨rfl, rfl⟩
  · intro s t h1 h2 h3
    cases t with
    | number => exact ⟨rfl, rfl⟩
    | str => exact ⟨rfl, rfl⟩
    | dateTime => exact absurd rfl h1
    | date => exact absurd rfl h2
    | time => exact absurd rfl h3
  · intro s
    exact ⟨rfl, rfl, rfl, rfl, rfl, rfl⟩

/-- Witness for C9: a non-string value and a string of a non-temporal kind
are returned unchanged. -/
theorem parse_data_spec_witness :
    mssqlParseData (GoVal.int 7) DataType.date = GoVal.int 7 ∧
    mysqlParseData (GoVal.str "x") DataType.number = GoVal.str "x" :=
  ⟨(parse_data_spec.1 (GoVal.int 7) DataType.date (by decide)).1,
   (parse_data_spec.2.1 "x" DataType.number (by decide) (by decide) (by decide)).2⟩

/-- C10: the MySQL `GetTableDDL` guard `err != nil && len(tbs) > 0` never
fires on the interesting inputs: when `GetTables` succeeds with an empty
list the code reaches the out-of-range access `tbs[0]` and crashes, and it
crashes on the error result as well (where `tbs` is nil); a non-empty table
list proceeds without crashing. -/
theorem mysql_get_table_ddl_empty_tables_crash_bug :
    mysqlGetTableDDL (.ok []) (.ok []) (.ok []) = .crash ∧
    mysqlGetTableDDL (.error "query failed") (.ok []) (.ok []) = .crash ∧
    mysqlGetTableDDL (.ok [⟨"t", "", "", 0, 0, 0⟩]) (.ok []) (.ok []) ≠ .crash := by decide

end Mayfly
